import Mathlib

/-!
A shallow embedding of the request-interception / span-duration-correlation
core of the sdk-logger repository, together with theorems settling the
spec's statements about it.

Embedded source files:
* `src/adapters/nestjs/span-duration-tracker.ts` — the `SpanDurationTracker`
  span processor and the `LoggingInterceptor` (size guard, sanitizers,
  layered duration-resolution fallback, error path);
* `src/index.ts` — the `CollectorExporter` (duration parsing, size
  calculation, attribute/body partition, tagged-union value encoding).

JavaScript runtime values are modelled by the inductive type `JsValue`;
machine numbers appearing in JSON data are integers (`Int`), span
durations and wall-clock instants are rationals (`ℚ`).  A JavaScript
value whose `JSON.stringify` throws (a cyclic object) is represented by
the dedicated constructor `JsValue.vCyclic`, carrying the object's
top-level key list (which is all the embedded code ever reads from such
a value, via `Object.keys`).
-/

/-- A JavaScript runtime value, as seen by the embedded code. -/
inductive JsValue where
  | vUndefined : JsValue
  | vNull : JsValue
  | vBool (b : Bool) : JsValue
  | vNum (n : Int) : JsValue
  | vStr (s : String) : JsValue
  | vArr (elems : List JsValue) : JsValue
  | vObj (fields : List (String × JsValue)) : JsValue
  | vCyclic (keys : List String) : JsValue

/-- JavaScript truthiness (`if (x)`): `undefined`, `null`, `false`, `0` and
the empty string are falsy; every object or array is truthy. -/
def JsValue.truthy : JsValue → Bool
  | .vUndefined => false
  | .vNull => false
  | .vBool b => b
  | .vNum n => n != 0
  | .vStr s => !s.isEmpty
  | .vArr _ => true
  | .vObj _ => true
  | .vCyclic _ => true

/-- JSON string escaping for the characters the embedding must round-trip:
a quote or backslash is prefixed with a backslash, all other characters
are kept as written. -/
def escapeChar (c : Char) : List Char :=
  if c = '"' ∨ c = '\\' then ['\\', c] else [c]

/-- Escape every character of a string for inclusion in a JSON literal. -/
def escapeString (s : String) : String :=
  ⟨s.data.flatMap escapeChar⟩

mutual

/-- `JSON.stringify`: `none` when serialization produces no string (a
top-level `undefined`) or throws (a cyclic object anywhere inside). -/
def jsonStringify : JsValue → Option String
  | .vUndefined => none
  | .vNull => some "null"
  | .vBool b => some (if b then "true" else "false")
  | .vNum n => some (toString n)
  | .vStr s => some ("\"" ++ escapeString s ++ "\"")
  | .vArr elems =>
    match stringifyElems elems with
    | some parts => some ("[" ++ String.intercalate "," parts ++ "]")
    | none => none
  | .vObj fields =>
    match stringifyFields fields with
    | some parts => some ("\x7b" ++ String.intercalate "," parts ++ "\x7d")
    | none => none
  | .vCyclic _ => none

/-- Serialize array elements; an `undefined` element renders as `null`
(JavaScript behaviour), a cyclic element makes the whole call throw. -/
def stringifyElems : List JsValue → Option (List String)
  | [] => some []
  | .vUndefined :: rest =>
    match stringifyElems rest with
    | some parts => some ("null" :: parts)
    | none => none
  | v :: rest =>
    match jsonStringify v with
    | some s =>
      match stringifyElems rest with
      | some parts => some (s :: parts)
      | none => none
    | none => none

/-- Serialize object fields; a field holding `undefined` is skipped
(JavaScript behaviour), a cyclic value makes the whole call throw. -/
def stringifyFields : List (String × JsValue) → Option (List String)
  | [] => some []
  | (_, .vUndefined) :: rest => stringifyFields rest
  | (k, v) :: rest =>
    match jsonStringify v with
    | some s =>
      match stringifyFields rest with
      | some parts => some (("\"" ++ escapeString k ++ "\":" ++ s) :: parts)
      | none => none
    | none => none

end

/-- Body-size ceiling of the interceptor (`this.maxBodySize = 1024 * 1024`). -/
def maxBodySize : Nat := 1024 * 1024

/-- Headers-size ceiling of the interceptor (`this.maxHeadersSize = 64 * 1024`). -/
def maxHeadersSize : Nat := 64 * 1024

/-- Embeds `LoggingInterceptor.calculateDataSize` (span-duration-tracker.ts):
0 for falsy data; otherwise the `JSON.stringify` length; if serialization
throws, fall back to `data.length` for strings, `Object.keys(data).length *
100` for objects, and 0 otherwise. -/
def LoggingInterceptor.calculateDataSize (data : JsValue) : Nat :=
  if data.truthy = false then 0
  else
    match jsonStringify data with
    | some s => s.length
    | none =>
      match data with
      | .vStr s => s.length
      | .vObj fields => fields.length * 100
      | .vArr elems => elems.length * 100
      | .vCyclic keys => keys.length * 100
      | _ => 0

/-- Embeds `CollectorExporter.calculateDataSize` (index.ts): 0 for falsy
data; otherwise the `JSON.stringify` length; 0 if serialization throws. -/
def CollectorExporter.calculateDataSize (data : JsValue) : Nat :=
  if data.truthy = false then 0
  else
    match jsonStringify data with
    | some s => s.length
    | none => 0

/-- JavaScript `String.prototype.trim`: strip leading and trailing
whitespace. -/
def jsTrim (s : String) : String :=
  ⟨((s.data.dropWhile Char.isWhitespace).reverse.dropWhile Char.isWhitespace).reverse⟩

/-- JavaScript `String.prototype.toLowerCase` over the ASCII range. -/
def jsToLower (s : String) : String :=
  ⟨s.data.map fun c => if 'A' ≤ c ∧ c ≤ 'Z' then Char.ofNat (c.toNat + 32) else c⟩

/-- JavaScript `String.prototype.endsWith`. -/
def jsEndsWith (s suf : String) : Bool :=
  s.data.drop (s.data.length - suf.data.length) == suf.data

/-- JavaScript `String.prototype.slice(0, -n)`: drop the last `n`
characters. -/
def jsDropRight (s : String) (n : Nat) : String :=
  ⟨s.data.take (s.data.length - n)⟩

/-- Decimal digits to a natural number, most significant first. -/
def digitsToNat (ds : List Char) : Nat :=
  ds.foldl (fun a c => a * 10 + (c.toNat - '0'.toNat)) 0

/-- JavaScript `Number(string)` coercion over decimal literals: the string is
trimmed; the empty string coerces to 0; an optional sign, an integer part and
an optional fractional part are accepted; anything else (including trailing
garbage) yields `none`, standing for `NaN`.  (Hexadecimal and exponent forms
are not exercised by the embedded code's inputs.) -/
def jsStringToNumber (s : String) : Option ℚ :=
  match (jsTrim s).data with
  | [] => some 0
  | t =>
    let signAndRest : Int × List Char :=
      match t with
      | '-' :: r => (-1, r)
      | '+' :: r => (1, r)
      | r => (1, r)
    let intAndRest := signAndRest.2.span Char.isDigit
    match intAndRest.2 with
    | [] =>
      if intAndRest.1.isEmpty then none
      else some ((signAndRest.1 * (digitsToNat intAndRest.1 : Int) : Int) : ℚ)
    | '.' :: fracRest =>
      let fracAndRest := fracRest.span Char.isDigit
      if fracAndRest.2.isEmpty ∧ (!intAndRest.1.isEmpty ∨ !fracAndRest.1.isEmpty) then
        some ((signAndRest.1 : ℚ) *
          ((digitsToNat intAndRest.1 : ℚ) +
            (digitsToNat fracAndRest.1 : ℚ) / ((10 : ℚ) ^ fracAndRest.1.length)))
      else none
    | _ => none

/-- Result of `CollectorExporter.parseDurationMs`, whose JavaScript return
type is `number | undefined`: `absent` is the `undefined` return, `nan` is a
returned `NaN`, `val q` a returned finite number. -/
inductive DurResult where
  | absent : DurResult
  | nan : DurResult
  | val (q : ℚ) : DurResult
deriving DecidableEq, Repr

/-- Lift a JavaScript numeric coercion result to a returned number. -/
def numOrNaN : Option ℚ → DurResult
  | none => .nan
  | some q => .val q

/-- Embeds `CollectorExporter.parseDurationMs` (index.ts lines 36-47):
`undefined`/`null` map to `undefined`; a finite number is returned as is;
a non-string non-number is coerced with `Number` (booleans to 0/1, objects
to `NaN`); a string is trimmed and lowercased, then matched against the
`ms`, `s` and `us` suffixes in that order, and otherwise returned as a bare
number when parseable, `undefined` when not. -/
def CollectorExporter.parseDurationMs (raw : JsValue) : DurResult :=
  match raw with
  | .vUndefined => .absent
  | .vNull => .absent
  | .vNum n => .val (n : ℚ)
  | .vBool b => .val (if b then 1 else 0)
  | .vArr _ => .nan
  | .vObj _ => .nan
  | .vCyclic _ => .nan
  | .vStr raw =>
    let s := jsToLower (jsTrim raw)
    if jsEndsWith s "ms" then numOrNaN (jsStringToNumber (jsDropRight s 2))
    else if jsEndsWith s "s" then
      match jsStringToNumber (jsDropRight s 1) with
      | none => .nan
      | some q => .val (q * 1000)
    else if jsEndsWith s "us" then
      match jsStringToNumber (jsDropRight s 2) with
      | none => .nan
      | some q => .val ((Int.floor (q / 1000) : Int) : ℚ)
    else
      match jsStringToNumber s with
      | none => .absent
      | some q => .val q

/-- The interceptor's body-sensitive field names (span-duration-tracker.ts:
`const sensitiveFields = ['password', 'token', 'secret', 'key']`). -/
def sensitiveFields : List String := ["password", "token", "secret", "key"]

/-- The interceptor's sensitive header names (span-duration-tracker.ts:
`const sensitiveHeaders = ['authorization', 'cookie', 'x-api-key',
'x-auth-token']`). -/
def sensitiveHeaders : List String := ["authorization", "cookie", "x-api-key", "x-auth-token"]

/-- One pass of the redaction loop over a single field: a sensitive key
whose value is truthy is replaced by the `'[REDACTED]'` marker, every other
field is left untouched. -/
def redactField (sensitive : List String) (kv : String × JsValue) : String × JsValue :=
  if sensitive.contains kv.1 && kv.2.truthy then (kv.1, .vStr "[REDACTED]") else kv

/-- The own-enumerable fields copied by a JavaScript object spread
`{ ...data }`: an object's fields themselves, index-keyed characters for a
string, index-keyed elements for an array, and nothing for a primitive. -/
def spreadFields : JsValue → List (String × JsValue)
  | .vObj fields => fields
  | .vStr s => s.data.enum.map fun ic => (toString ic.1, .vStr (String.singleton ic.2))
  | .vArr elems => elems.enum.map fun ie => (toString ie.1, ie.2)
  | _ => []

/-- Embeds `LoggingInterceptor.sanitizeBody` (span-duration-tracker.ts lines
359-382): a falsy body maps to `null`; a body whose serialized size exceeds
the 1 MiB ceiling is replaced wholesale by a truncation marker carrying the
original size; otherwise the body is shallow-copied and each sensitive field
with a truthy value is overwritten with `'[REDACTED]'`.  A cyclic body stays
cyclic: its shallow copy still contains the cyclic references. -/
def LoggingInterceptor.sanitizeBody (body : JsValue) : JsValue :=
  if body.truthy = false then .vNull
  else
    let bodySize := LoggingInterceptor.calculateDataSize body
    if bodySize > maxBodySize then
      .vObj [("[TRUNCATED]",
               .vStr ("Body muito grande (" ++ toString bodySize ++
                 " bytes). Tamanho máximo: " ++ toString maxBodySize ++ " bytes")),
             ("[ORIGINAL_SIZE]", .vNum (bodySize : Int))]
    else
      match body with
      | .vCyclic keys => .vCyclic keys
      | b => .vObj ((spreadFields b).map (redactField sensitiveFields))

/-- Embeds `LoggingInterceptor.sanitizeHeaders` (span-duration-tracker.ts
lines 384-407): falsy headers map to the empty object; oversized headers are
replaced wholesale by a truncation marker; otherwise sensitive headers with
truthy values are overwritten with `'[REDACTED]'`. -/
def LoggingInterceptor.sanitizeHeaders (headers : JsValue) : JsValue :=
  if headers.truthy = false then .vObj []
  else
    let headersSize := LoggingInterceptor.calculateDataSize headers
    if headersSize > maxHeadersSize then
      .vObj [("[TRUNCATED]",
               .vStr ("Headers muito grandes (" ++ toString headersSize ++
                 " bytes). Tamanho máximo: " ++ toString maxHeadersSize ++ " bytes")),
             ("[ORIGINAL_SIZE]", .vNum (headersSize : Int))]
    else
      match headers with
      | .vCyclic keys => .vCyclic keys
      | h => .vObj ((spreadFields h).map (redactField sensitiveHeaders))

/-- The tagged-union wire value of the exporter's payload.  The embedded
JSON numbers are integers, for which `Number.isInteger` holds, so the
source's `doubleValue` branch is never taken and has no constructor here. -/
inductive AnyValue where
  | stringValue (s : String) : AnyValue
  | intValue (n : Int) : AnyValue
  | boolValue (b : Bool) : AnyValue
  | arrayValue (vs : List AnyValue) : AnyValue
  | kvlistValue (kvs : List (String × AnyValue)) : AnyValue

mutual

/-- Embeds `CollectorExporter.toAnyValue` (index.ts lines 308-329):
`null`/`undefined` encode to the empty string value; strings, integers and
booleans to their tags; arrays recurse element-wise and objects key-by-key.
A cyclic object's values are not carried by the embedding, so it encodes to
an empty key/value list. -/
def CollectorExporter.toAnyValue : JsValue → AnyValue
  | .vNull => .stringValue ""
  | .vUndefined => .stringValue ""
  | .vStr s => .stringValue s
  | .vNum n => .intValue n
  | .vBool b => .boolValue b
  | .vArr elems => .arrayValue (CollectorExporter.toAnyValueList elems)
  | .vObj fields => .kvlistValue (CollectorExporter.toAnyValueFields fields)
  | .vCyclic _ => .kvlistValue []

/-- Element-wise encoding of an array value. -/
def CollectorExporter.toAnyValueList : List JsValue → List AnyValue
  | [] => []
  | v :: rest => CollectorExporter.toAnyValue v :: CollectorExporter.toAnyValueList rest

/-- Key-by-key encoding of an object value. -/
def CollectorExporter.toAnyValueFields : List (String × JsValue) → List (String × AnyValue)
  | [] => []
  | (k, v) :: rest => (k, CollectorExporter.toAnyValue v) :: CollectorExporter.toAnyValueFields rest

end

/-- Embeds `CollectorExporter.isPrimitiveOrArrayOfPrimitives` (index.ts
lines 331-336): strings, numbers, booleans, `null` and `undefined` are
primitive; an array is accepted when every element is primitive. -/
def CollectorExporter.isPrimitiveOrArrayOfPrimitives (v : JsValue) : Bool :=
  let isPrim : JsValue → Bool := fun x =>
    match x with
    | .vStr _ => true
    | .vNum _ => true
    | .vBool _ => true
    | .vNull => true
    | .vUndefined => true
    | _ => false
  isPrim v ||
    (match v with
     | .vArr elems => elems.all isPrim
     | _ => false)

/-- The context keys excluded from the flat-attribute loop because they are
handled as trace correlation fields (`const excludedFields = ['traceId',
'spanId', 'trace_id', 'span_id']`). -/
def excludedFields : List String := ["traceId", "spanId", "trace_id", "span_id"]

/-- The exporter's key renaming inside the context loop: `request_id`
becomes `request.id` and `date` becomes `date_utc`. -/
def renameContextKey (k : String) : String :=
  let k1 := if k = "request_id" then "request.id" else k
  if k = "date" then "date_utc" else k1

/-- Embeds the context loop of `CollectorExporter.buildAttributes` (index.ts
lines 248-258): every context entry that is not an excluded correlation key
and whose value is primitive-or-array-of-primitives is pushed as a flat
attribute, with the key renamed and the value encoded. -/
def CollectorExporter.contextAttributes (context : List (String × JsValue)) :
    List (String × AnyValue) :=
  (context.filter fun kv =>
      !excludedFields.contains kv.1 && CollectorExporter.isPrimitiveOrArrayOfPrimitives kv.2).map
    fun kv => (renameContextKey kv.1, CollectorExporter.toAnyValue kv.2)

/-- Embeds the final filter of `CollectorExporter.buildAttributes` (index.ts
lines 261-270): an attribute survives when `val?.stringValue !== ''` or one
of the other tag checks holds.  For every tag other than `stringValue` the
first disjunct already holds (the absent `stringValue` field is `undefined`,
and `undefined !== ''`), so exactly the attributes whose value is the empty
string are dropped. -/
def keepAttr (a : String × AnyValue) : Bool :=
  (match a.2 with
   | .stringValue s => !s.isEmpty
   | _ => true) ||
  (match a.2 with
   | .boolValue _ => true
   | _ => false) ||
  (match a.2 with
   | .intValue _ => true
   | _ => false) ||
  (match a.2 with
   | .arrayValue vs => !vs.isEmpty
   | _ => false)

/-- The `attrs.filter(...)` sanitize pass closing `buildAttributes`. -/
def CollectorExporter.sanitizeAttributes (attrs : List (String × AnyValue)) :
    List (String × AnyValue) :=
  attrs.filter keepAttr

/-- The context-derived flat attributes actually present in the outbound
payload: the context loop followed by the sanitize filter. -/
def CollectorExporter.payloadContextAttributes (context : List (String × JsValue)) :
    List (String × AnyValue) :=
  CollectorExporter.sanitizeAttributes (CollectorExporter.contextAttributes context)

/-- Embeds the complex-context part of `CollectorExporter.buildBodyObject`
(index.ts lines 291-299): the context entries whose value is not
primitive-or-array-of-primitives are collected, and the body carries a
`context` member exactly when that collection is non-empty. -/
def CollectorExporter.buildBodyContext (context : List (String × JsValue)) :
    Option (List (String × JsValue)) :=
  let complex := context.filter fun kv =>
    !(CollectorExporter.isPrimitiveOrArrayOfPrimitives kv.2)
  if complex.isEmpty then none else some complex

/-- The `spanDurations` table: a JavaScript `Map` in insertion order,
keyed by span ID, holding millisecond durations. -/
abbrev SpanTable := List (String × ℚ)

/-- JavaScript `Map.prototype.set`: an existing key keeps its position and
gets the new value; a new key is appended at the end. -/
def mapSet (m : SpanTable) (k : String) (v : ℚ) : SpanTable :=
  match m with
  | [] => [(k, v)]
  | (k0, v0) :: rest => if k0 = k then (k0, v) :: rest else (k0, v0) :: mapSet rest k v

/-- JavaScript `Map.prototype.delete`: remove the entry with the given key. -/
def mapDelete (m : SpanTable) (k : String) : SpanTable :=
  m.eraseP (fun kv => kv.1 == k)

/-- JavaScript `Map.prototype.get`, i.e. the body of `getSpanDuration`. -/
def getSpanDuration (m : SpanTable) (spanId : String) : Option ℚ :=
  m.lookup spanId

/-- A span-completion event as delivered to `SpanDurationTracker.onEnd`:
the span's ID and its `[seconds, nanoseconds]` start and end pairs. -/
structure SpanEvent where
  spanId : String
  startSec : Int
  startNanos : Int
  endSec : Int
  endNanos : Int

/-- The duration computed by `onEnd`:
`((endSec*1e9 + endNanos) - (startSec*1e9 + startNanos)) / 1e6`. -/
def SpanEvent.durationMs (e : SpanEvent) : ℚ :=
  (((e.endSec * 1000000000 + e.endNanos) - (e.startSec * 1000000000 + e.startNanos) : Int) : ℚ)
    / 1000000

/-- Embeds `SpanDurationTracker.onEnd` (span-duration-tracker.ts lines
16-44): store the computed duration under the span's ID; then, if the table
has grown past 100 entries, delete the first (oldest-inserted) key — but
only when that key is truthy, i.e. non-empty. -/
def SpanDurationTracker.onEnd (m : SpanTable) (span : SpanEvent) : SpanTable :=
  let m1 := mapSet m span.spanId span.durationMs
  if m1.length > 100 then
    match m1.head? with
    | some kv => if kv.1 ≠ "" then mapDelete m1 kv.1 else m1
    | none => m1
  else m1

/-- The table produced by a sequence of span-completion events starting
from the empty table. -/
def processSpans (events : List SpanEvent) : SpanTable :=
  events.foldl SpanDurationTracker.onEnd []

/-- The max-scan loop of the interceptor's duration resolution: fold over
the tracked durations, keeping the largest value that belongs to a truthy
(non-empty) span ID and strictly exceeds the accumulator, starting from 0. -/
def maxTrackedDuration (table : SpanTable) : ℚ :=
  table.foldl
    (fun maxDuration kv => if kv.1 ≠ "" ∧ kv.2 > maxDuration then kv.2 else maxDuration) 0

/-- Embeds the duration resolution of `LoggingInterceptor.intercept`
(span-duration-tracker.ts lines 181-219 in the success path and the
identical lines 254-292 in the error path): (a) look up the currently
active span's ID in the table; (b) if undefined and the captured `spanId`
is truthy, look that up; (c) if still undefined, take the max-scan value
when it is strictly positive; (d) otherwise use the interceptor's own
wall-clock measurement. -/
def resolveDuration (activeSpanId : Option String) (capturedSpanId : String)
    (table : SpanTable) (startTime endTime : ℚ) : ℚ :=
  let d0 : Option ℚ :=
    match activeSpanId with
    | some sid => getSpanDuration table sid
    | none => none
  let d1 : Option ℚ :=
    match d0 with
    | some d => some d
    | none => if capturedSpanId ≠ "" then getSpanDuration table capturedSpanId else none
  let d2 : Option ℚ :=
    match d1 with
    | some d => some d
    | none =>
      let maxDuration := maxTrackedDuration table
      if maxDuration > 0 then some maxDuration else none
  match d2 with
  | some d => d
  | none => endTime - startTime

/-- The maximum value among all tracked durations, absent exactly when the
table is empty. -/
def maxValueOfTable (table : SpanTable) : Option ℚ :=
  match table.map Prod.snd with
  | [] => none
  | v :: vs => some (vs.foldl max v)

/-- Modelled from the spec's words for the fallback chain (4.4 step 5), for
comparison with `resolveDuration`: (a) the active span's tracked duration;
(b) otherwise the duration looked up by the captured spanId; (c) otherwise
the maximum value among all currently-tracked span durations; (d) only when
no tracked duration exists at all, the wall-clock measurement. -/
def resolveDurationClaimed (activeSpanId : Option String) (capturedSpanId : String)
    (table : SpanTable) (startTime endTime : ℚ) : ℚ :=
  let a := activeSpanId.bind (getSpanDuration table)
  let b := a.orElse fun _ => getSpanDuration table capturedSpanId
  let c := b.orElse fun _ => maxValueOfTable table
  c.getD (endTime - startTime)

/-- The log levels of the SDK (`enum LogLevel` in types). -/
inductive LogLevel where
  | error : LogLevel
  | warn : LogLevel
  | info : LogLevel
  | debug : LogLevel
deriving DecidableEq, Repr

/-- An inbound HTTP request as destructured by the interceptor. -/
structure HttpRequest where
  method : String
  url : String
  headers : JsValue
  body : JsValue

/-- The single log emission of the interceptor's oversized-data branch:
its level, the recorded (possibly truncated) body and headers, and the
reported duration. -/
structure OversizedLogCall where
  level : LogLevel
  loggedBody : JsValue
  loggedHeaders : JsValue
  durationMs : ℚ

/-- The warn entry built in the oversized-data branch (span-duration-
tracker.ts lines 129-143): each oversized part is replaced by the
`'[TRUNCATED - TOO LARGE]'` marker and the duration is reported as 0. -/
def LoggingInterceptor.oversizedEntry (r : HttpRequest) : OversizedLogCall :=
  let bodySize := LoggingInterceptor.calculateDataSize r.body
  let headersSize := LoggingInterceptor.calculateDataSize r.headers
  { level := .warn
    loggedBody := if bodySize > maxBodySize then .vStr "[TRUNCATED - TOO LARGE]" else r.body
    loggedHeaders :=
      if headersSize > maxHeadersSize then .vStr "[TRUNCATED - TOO LARGE]" else r.headers
    durationMs := 0 }

/-- How `LoggingInterceptor.intercept` disposes of a request before the
handler runs: pass it through with no instrumentation at all (invalid
context or request), log a single warn entry and pass it through without
piping the handler (oversized data), or pipe the handler with the deferred
success/error logging attached. -/
inductive InterceptOutcome where
  | passthroughNoLog : InterceptOutcome
  | oversized (call : OversizedLogCall) : InterceptOutcome
  | instrumented (capturedTraceId capturedSpanId : String) (startTime : ℚ) : InterceptOutcome

/-- Embeds the synchronous part of `LoggingInterceptor.intercept`
(span-duration-tracker.ts lines 91-178): context/request validation, the
size guard with its single warn entry, and otherwise correlation-ID capture
and start-instant recording before piping the handler.  `capturedTraceId`
and `capturedSpanId` stand for the IDs read from the active span or
synthesized as random hex; `startTime` is the recorded start instant. -/
def LoggingInterceptor.intercept (ctxValid reqValid : Bool) (r : HttpRequest)
    (capturedTraceId capturedSpanId : String) (startTime : ℚ) : InterceptOutcome :=
  if ctxValid = false then .passthroughNoLog
  else if reqValid = false then .passthroughNoLog
  else
    let bodySize := LoggingInterceptor.calculateDataSize r.body
    let headersSize := LoggingInterceptor.calculateDataSize r.headers
    if bodySize > maxBodySize ∨ headersSize > maxHeadersSize then
      .oversized (LoggingInterceptor.oversizedEntry r)
    else .instrumented capturedTraceId capturedSpanId startTime

/-- The warn-level entries emitted synchronously by `intercept` itself
(the deferred success/error entries of the instrumented path are scheduled
later, inside the `tap`/`catchError` callbacks). -/
def immediateLogs : InterceptOutcome → List OversizedLogCall
  | .oversized call => [call]
  | _ => []

/-- A JavaScript error as observed by the interceptor's `catchError`:
optional `message`, `stack` and `status` properties. -/
structure JsError where
  message : Option String
  stack : Option String
  status : Option Int
deriving DecidableEq, Repr

/-- The error fields recorded in the error-path log entry
(span-duration-tracker.ts lines 308-312): `error?.message || 'Unknown
error'`, `error?.stack || ''`, and `error?.status || 500`. -/
structure ErrorLogRecord where
  message : String
  stack : String
  statusCode : Int
deriving DecidableEq, Repr

/-- Build the recorded error fields, with JavaScript `||` falsy fallbacks:
a missing or empty message becomes `'Unknown error'`, a missing stack the
empty string, and a missing or zero status 500. -/
def LoggingInterceptor.errorRecord (error : JsError) : ErrorLogRecord :=
  { message :=
      match error.message with
      | some m => if m ≠ "" then m else "Unknown error"
      | none => "Unknown error"
    stack :=
      match error.stack with
      | some st => st
      | none => ""
    statusCode :=
      match error.status with
      | some n => if n ≠ 0 then n else 500
      | none => 500 }

/-- What the `catchError` callback produces: the error-level log entry
(level, recorded error fields, resolved duration) and the error it
re-raises to the caller. -/
structure ErrorPathResult where
  entryLevel : LogLevel
  entryError : ErrorLogRecord
  entryDurationMs : ℚ
  rethrown : JsError
deriving DecidableEq, Repr

/-- Embeds the `catchError` branch of `LoggingInterceptor.intercept`
(span-duration-tracker.ts lines 252-325): schedule an error-level entry
carrying the recorded error fields and the resolved duration, then
`throw error` — re-raise the very error that was caught. -/
def LoggingInterceptor.catchErrorHandler (error : JsError) (activeSpanId : Option String)
    (capturedSpanId : String) (table : SpanTable) (startTime endTime : ℚ) : ErrorPathResult :=
  { entryLevel := .error
    entryError := LoggingInterceptor.errorRecord error
    entryDurationMs := resolveDuration activeSpanId capturedSpanId table startTime endTime
    rethrown := error }

/-- C3: the exporter's duration parser meets the spec's vectors for
`"150ms"`, `"2s"`, the bare number `150` and `"banana"`, but on `"500us"`
it returns `NaN` rather than the specified floored `0`: the `'s'`-suffix
branch matches first and `Number("500u")` is `NaN`, so the dedicated
`'us'` branch (micro-to-milli floor) is unreachable for any string. -/
theorem C3_parseDurationMs_vectors :
    CollectorExporter.parseDurationMs (.vStr "150ms") = .val 150 ∧
    CollectorExporter.parseDurationMs (.vStr "2s") = .val 2000 ∧
    CollectorExporter.parseDurationMs (.vNum 150) = .val 150 ∧
    CollectorExporter.parseDurationMs (.vStr "banana") = .absent ∧
    CollectorExporter.parseDurationMs (.vStr "500us") = .nan ∧
    DurResult.nan ≠ DurResult.val 0 := by
  refine ⟨by rfl, ?_, by rfl, by rfl, by rfl, by decide⟩
  show DurResult.val (((2 : Int) : ℚ) * 1000) = .val 2000
  simp only [DurResult.val.injEq]
  norm_num

/-- C6 counterexample: `calculateSize("test")` is 6 — the length of the
JSON-serialized string `"test"`, quotes included — in both the exporter's
and the interceptor's calculator, not the claimed 4; moreover the
interceptor's calculator yields 100 on a one-key cyclic object, not 0. -/
theorem C6_counterexample :
    CollectorExporter.calculateDataSize (.vStr "test") = 6 ∧
    LoggingInterceptor.calculateDataSize (.vStr "test") = 6 ∧
    LoggingInterceptor.calculateDataSize (.vCyclic ["self"]) = 100 ∧
    (6 : Nat) ≠ 4 ∧ (100 : Nat) ≠ 0 := by decide

/-- C6 amended: both size calculators are total and return 0 on
`undefined`/`null`, the JSON-serialized length otherwise — 6 for
`"test"`, 18 for `{message:"test"}` — and on a value whose serialization
fails the exporter's calculator returns 0 while the interceptor's returns
100 per top-level key. -/
theorem C6_calculateSize_vectors :
    LoggingInterceptor.calculateDataSize .vUndefined = 0 ∧
    LoggingInterceptor.calculateDataSize .vNull = 0 ∧
    CollectorExporter.calculateDataSize .vUndefined = 0 ∧
    CollectorExporter.calculateDataSize .vNull = 0 ∧
    LoggingInterceptor.calculateDataSize (.vStr "test") = 6 ∧
    CollectorExporter.calculateDataSize (.vStr "test") = 6 ∧
    LoggingInterceptor.calculateDataSize (.vObj [("message", .vStr "test")]) = 18 ∧
    CollectorExporter.calculateDataSize (.vObj [("message", .vStr "test")]) = 18 ∧
    (∀ keys, CollectorExporter.calculateDataSize (.vCyclic keys) = 0) ∧
    (∀ keys, LoggingInterceptor.calculateDataSize (.vCyclic keys) = keys.length * 100) := by
  refine ⟨by rfl, by rfl, by rfl, by rfl, by rfl, by rfl, by rfl, by rfl, ?_, ?_⟩
  · intro keys; rfl
  · intro keys; rfl

/-- C5 counterexample: a body field named `authorization` is not redacted
by `sanitizeBody` — the interceptor's body-sensitive list is only
`password`, `token`, `secret`, `key` — so the claimed redaction of
`authorization` fails. -/
theorem C5_counterexample :
    LoggingInterceptor.sanitizeBody (.vObj [("authorization", .vStr "x"), ("other", .vStr "y")])
      = .vObj [("authorization", .vStr "x"), ("other", .vStr "y")] ∧
    JsValue.vStr "x" ≠ JsValue.vStr "[REDACTED]" := by
  refine ⟨by rfl, ?_⟩
  intro h
  injection h with h2
  exact absurd h2 (by decide)

/-- C5 amended: within the size ceiling, `sanitizeBody` shallow-copies the
body and replaces each of the sensitive fields `password`, `token`,
`secret`, `key` (not `authorization`, which only the header sanitizer
covers) by the redaction marker when its value is truthy, preserving every
other field unchanged; an oversized body is replaced wholesale by a
truncation marker carrying the original size, with no redaction applied to
the marker. -/
theorem C5_sanitizeBody_spec :
    (∀ fields : List (String × JsValue),
      LoggingInterceptor.calculateDataSize (.vObj fields) ≤ maxBodySize →
        LoggingInterceptor.sanitizeBody (.vObj fields)
            = .vObj (fields.map (redactField sensitiveFields)) ∧
        (∀ k v, (k, v) ∈ fields → sensitiveFields.contains k = true → v.truthy = true →
          (k, JsValue.vStr "[REDACTED]") ∈ fields.map (redactField sensitiveFields)) ∧
        (∀ k v, (k, v) ∈ fields → ¬(sensitiveFields.contains k = true ∧ v.truthy = true) →
          (k, v) ∈ fields.map (redactField sensitiveFields))) ∧
    (∀ body : JsValue, body.truthy = true →
      LoggingInterceptor.calculateDataSize body > maxBodySize →
        LoggingInterceptor.sanitizeBody body = .vObj [
          ("[TRUNCATED]",
            .vStr ("Body muito grande (" ++ toString (LoggingInterceptor.calculateDataSize body)
              ++ " bytes). Tamanho máximo: " ++ toString maxBodySize ++ " bytes")),
          ("[ORIGINAL_SIZE]", .vNum (LoggingInterceptor.calculateDataSize body : Int))]) := by
  constructor
  · intro fields hsize
    have hgt : ¬ (LoggingInterceptor.calculateDataSize (JsValue.vObj fields) > maxBodySize) := by
      omega
    refine ⟨?_, ?_, ?_⟩
    · simp [LoggingInterceptor.sanitizeBody, JsValue.truthy, hgt, spreadFields]
    · intro k v hmem hk hv
      have : redactField sensitiveFields (k, v) = (k, JsValue.vStr "[REDACTED]") := by
        simp only [redactField]
        rw [hk, hv]
        exact rfl
      exact this ▸ List.mem_map_of_mem (redactField sensitiveFields) hmem
    · intro k v hmem hnot
      have : redactField sensitiveFields (k, v) = (k, v) := by
        simp only [redactField]
        cases hk : sensitiveFields.contains k with
        | false => exact rfl
        | true =>
          have hv : v.truthy = false := by
            cases hvt : v.truthy with
            | true => exact absurd ⟨hk, hvt⟩ hnot
            | false => rfl
          rw [hv]
          exact rfl
      exact this ▸ List.mem_map_of_mem (redactField sensitiveFields) hmem
  · intro body htruthy hbig
    simp [LoggingInterceptor.sanitizeBody, htruthy, hbig]

/-- C5 witness: the spec's own example body, run through the amended
theorem. -/
theorem C5_sanitizeBody_witness :
    LoggingInterceptor.sanitizeBody (.vObj [("password", .vStr "x"), ("other", .vStr "y")])
      = .vObj [("password", .vStr "[REDACTED]"), ("other", .vStr "y")] := by
  have h := (C5_sanitizeBody_spec.1 [("password", .vStr "x"), ("other", .vStr "y")]
    (by decide)).1
  exact h.trans (by rfl)

/-- C9: both sanitizers redact a field only when its value is truthy; a
sensitive key carried with a falsy value (empty string, 0, false, null) is
passed through to the log unredacted. -/
theorem C9_falsy_values_pass_through :
    (∀ (sensitive : List String) (kv : String × JsValue),
      redactField sensitive kv ≠ kv → kv.2.truthy = true) ∧
    (∀ (fields : List (String × JsValue)) (k : String) (v : JsValue),
      (k, v) ∈ fields → sensitiveFields.contains k = true → v.truthy = false →
      LoggingInterceptor.calculateDataSize (.vObj fields) ≤ maxBodySize →
        ∃ fields', LoggingInterceptor.sanitizeBody (.vObj fields) = .vObj fields' ∧
          (k, v) ∈ fields') ∧
    (∀ (fields : List (String × JsValue)) (k : String) (v : JsValue),
      (k, v) ∈ fields → sensitiveHeaders.contains k = true → v.truthy = false →
      LoggingInterceptor.calculateDataSize (.vObj fields) ≤ maxHeadersSize →
        ∃ fields', LoggingInterceptor.sanitizeHeaders (.vObj fields) = .vObj fields' ∧
          (k, v) ∈ fields') := by
  have hfix : ∀ (sensitive : List String) (k : String) (v : JsValue), v.truthy = false →
      redactField sensitive (k, v) = (k, v) := by
    intro sensitive k v hv
    simp only [redactField]
    rw [hv]
    cases sensitive.contains k <;> exact rfl
  refine ⟨?_, ?_, ?_⟩
  · intro sensitive kv hne
    obtain ⟨k, v⟩ := kv
    cases hvt : v.truthy with
    | true => rfl
    | false => exact absurd (hfix sensitive k v hvt) hne
  · intro fields k v hmem _ hv hsize
    refine ⟨fields.map (redactField sensitiveFields), ?_, ?_⟩
    · have hgt : ¬ (LoggingInterceptor.calculateDataSize (JsValue.vObj fields) > maxBodySize) := by
        omega
      simp [LoggingInterceptor.sanitizeBody, JsValue.truthy, hgt, spreadFields]
    · exact (hfix sensitiveFields k v hv) ▸ List.mem_map_of_mem (redactField sensitiveFields) hmem
  · intro fields k v hmem _ hv hsize
    refine ⟨fields.map (redactField sensitiveHeaders), ?_, ?_⟩
    · have hgt : ¬ (LoggingInterceptor.calculateDataSize (JsValue.vObj fields) > maxHeadersSize) := by
        omega
      simp [LoggingInterceptor.sanitizeHeaders, JsValue.truthy, hgt, spreadFields]
    · exact (hfix sensitiveHeaders k v hv) ▸ List.mem_map_of_mem (redactField sensitiveHeaders) hmem

/-- C9 witness: a `password` field holding the empty string survives
`sanitizeBody` unredacted. -/
theorem C9_witness :
    ∃ fields', LoggingInterceptor.sanitizeBody (.vObj [("password", .vStr "")])
        = .vObj fields' ∧ ("password", JsValue.vStr "") ∈ fields' := by
  exact C9_falsy_values_pass_through.2.1 [("password", .vStr "")] "password" (.vStr "")
    (List.mem_singleton.mpr rfl) (by decide) (by rfl) (by decide)

/-- C4: a request whose body exceeds 1 MiB or whose headers exceed 64 KiB
makes the interceptor emit exactly one warn-level entry, reporting a
duration of 0, and pass the request through without piping the
success/error logging onto the handler. -/
theorem C4_oversized_request (r : HttpRequest) (tid sid : String) (t : ℚ)
    (h : LoggingInterceptor.calculateDataSize r.body > maxBodySize ∨
         LoggingInterceptor.calculateDataSize r.headers > maxHeadersSize) :
    LoggingInterceptor.intercept true true r tid sid t
        = .oversized (LoggingInterceptor.oversizedEntry r) ∧
    (LoggingInterceptor.oversizedEntry r).level = .warn ∧
    (LoggingInterceptor.oversizedEntry r).durationMs = 0 ∧
    immediateLogs (LoggingInterceptor.intercept true true r tid sid t)
        = [LoggingInterceptor.oversizedEntry r] := by
  have hmain : LoggingInterceptor.intercept true true r tid sid t
      = .oversized (LoggingInterceptor.oversizedEntry r) := by
    show (if LoggingInterceptor.calculateDataSize r.body > maxBodySize ∨
            LoggingInterceptor.calculateDataSize r.headers > maxHeadersSize then
          InterceptOutcome.oversized (LoggingInterceptor.oversizedEntry r)
        else .instrumented tid sid t)
      = .oversized (LoggingInterceptor.oversizedEntry r)
    exact if_pos h
  refine ⟨hmain, rfl, rfl, ?_⟩
  rw [hmain]
  exact rfl

set_option maxRecDepth 4000 in
/-- C4 witness: a request with a cyclic 656-key headers object, whose
computed size 65600 exceeds the 64 KiB ceiling. -/
theorem C4_witness :
    LoggingInterceptor.intercept true true
        ⟨"POST", "/x", .vCyclic (List.replicate 656 "h"), .vNull⟩ "t" "s" 0
      = .oversized (LoggingInterceptor.oversizedEntry
          ⟨"POST", "/x", .vCyclic (List.replicate 656 "h"), .vNull⟩) ∧
    (LoggingInterceptor.oversizedEntry
        ⟨"POST", "/x", .vCyclic (List.replicate 656 "h"), .vNull⟩).durationMs = 0 := by
  have h := C4_oversized_request ⟨"POST", "/x", .vCyclic (List.replicate 656 "h"), .vNull⟩
    "t" "s" 0 (Or.inr (by decide))
  exact ⟨h.1, h.2.2.1⟩

/-- C8: the `catchError` branch re-raises the very error it caught —
unchanged — after recording the error's message, stack and inferred status
code in an error-level entry; with `||` fallbacks, a present non-empty
message, a present stack and a present non-zero status are recorded as
given. -/
theorem C8_error_rethrown_unchanged :
    (∀ (error : JsError) (activeSpanId : Option String) (capturedSpanId : String)
        (table : SpanTable) (startTime endTime : ℚ),
      (LoggingInterceptor.catchErrorHandler error activeSpanId capturedSpanId table
          startTime endTime).rethrown = error ∧
      (LoggingInterceptor.catchErrorHandler error activeSpanId capturedSpanId table
          startTime endTime).entryLevel = .error ∧
      (LoggingInterceptor.catchErrorHandler error activeSpanId capturedSpanId table
          startTime endTime).entryError = LoggingInterceptor.errorRecord error) ∧
    (∀ (error : JsError) (m : String), error.message = some m → m ≠ "" →
      (LoggingInterceptor.errorRecord error).message = m) ∧
    (∀ (error : JsError) (st : String), error.stack = some st →
      (LoggingInterceptor.errorRecord error).stack = st) ∧
    (∀ (error : JsError) (n : Int), error.status = some n → n ≠ 0 →
      (LoggingInterceptor.errorRecord error).statusCode = n) := by
  refine ⟨fun _ _ _ _ _ _ => ⟨rfl, rfl, rfl⟩, ?_, ?_, ?_⟩
  · intro error m hm hne
    simp [LoggingInterceptor.errorRecord, hm, hne]
  · intro error st hst
    simp [LoggingInterceptor.errorRecord, hst]
  · intro error n hn hne
    simp [LoggingInterceptor.errorRecord, hn, hne]

/-- C8 witness: a concrete error with message, stack and status is
re-raised unchanged and recorded as given. -/
theorem C8_witness :
    (LoggingInterceptor.catchErrorHandler ⟨some "boom", some "at handler", some 404⟩
        none "s" [] 0 1).rethrown = ⟨some "boom", some "at handler", some 404⟩ ∧
    (LoggingInterceptor.errorRecord ⟨some "boom", some "at handler", some 404⟩).message
        = "boom" ∧
    (LoggingInterceptor.errorRecord ⟨some "boom", some "at handler", some 404⟩).statusCode
        = 404 := by
  refine ⟨(C8_error_rethrown_unchanged.1 ⟨some "boom", some "at handler", some 404⟩
      none "s" [] 0 1).1, ?_, ?_⟩
  · exact C8_error_rethrown_unchanged.2.1 ⟨some "boom", some "at handler", some 404⟩
      "boom" rfl (by decide)
  · exact C8_error_rethrown_unchanged.2.2.2 ⟨some "boom", some "at handler", some 404⟩
      404 rfl (by decide)

/-- C1 counterexample: with no active span at completion, a captured
spanId absent from the table, and the tracker holding a single span of
duration 0, the claimed fallback (c) — the maximum among all tracked
durations — would report that tracked 0; the code instead requires the
scanned maximum to be strictly positive, skips (c), and reports its
wall-clock measurement 12 − 5 = 7. -/
theorem C1_counterexample :
    resolveDuration none "s0" [("a", 0)] 5 12 = 7 ∧
    resolveDurationClaimed none "s0" [("a", 0)] 5 12 = 0 ∧
    (7 : ℚ) ≠ 0 := by
  refine ⟨?_, by rfl, by norm_num⟩
  show (12 : ℚ) - 5 = 7
  norm_num

/-- C1 amended: the interceptor resolves the logged duration by the layered
fallback (a) the active span's tracked duration; (b) otherwise, when the
captured spanId is non-empty, its tracked duration; (c) otherwise the
maximum among tracked durations of non-empty span IDs, used only when that
maximum is strictly positive; (d) otherwise the interceptor's wall-clock
measurement — each later step used exactly when every earlier one yields
no value. -/
theorem C1_duration_fallback_order :
    ∀ (activeSpanId : Option String) (capturedSpanId : String) (table : SpanTable)
      (startTime endTime : ℚ),
      (∀ d, activeSpanId.bind (getSpanDuration table) = some d →
        resolveDuration activeSpanId capturedSpanId table startTime endTime = d) ∧
      (activeSpanId.bind (getSpanDuration table) = none → capturedSpanId ≠ "" →
        ∀ d, getSpanDuration table capturedSpanId = some d →
          resolveDuration activeSpanId capturedSpanId table startTime endTime = d) ∧
      (activeSpanId.bind (getSpanDuration table) = none →
        (capturedSpanId ≠ "" → getSpanDuration table capturedSpanId = none) →
        maxTrackedDuration table > 0 →
          resolveDuration activeSpanId capturedSpanId table startTime endTime
            = maxTrackedDuration table) ∧
      (activeSpanId.bind (getSpanDuration table) = none →
        (capturedSpanId ≠ "" → getSpanDuration table capturedSpanId = none) →
        ¬ maxTrackedDuration table > 0 →
          resolveDuration activeSpanId capturedSpanId table startTime endTime
            = endTime - startTime) := by
  intro activeSpanId capturedSpanId table startTime endTime
  have hstep2 : ∀ r : Option ℚ,
      (match (match r with
              | some d => some d
              | none =>
                if maxTrackedDuration table > 0 then some (maxTrackedDuration table)
                else none) with
        | some d => d
        | none => endTime - startTime)
      = (match r with
         | some d => d
         | none =>
           if maxTrackedDuration table > 0 then maxTrackedDuration table
           else endTime - startTime) := by
    intro r
    cases r with
    | some d => rfl
    | none =>
      by_cases hmax : maxTrackedDuration table > 0
      · rw [if_pos hmax, if_pos hmax]
      · rw [if_neg hmax, if_neg hmax]
  refine ⟨?_, ?_, ?_, ?_⟩
  · intro d hd
    cases activeSpanId with
    | none => exact absurd hd (by simp)
    | some sid =>
      have hsid : getSpanDuration table sid = some d := by simpa using hd
      show (match (match (match getSpanDuration table sid with
                          | some x => some x
                          | none =>
                            if capturedSpanId ≠ "" then
                              getSpanDuration table capturedSpanId
                            else none) with
                   | some x => some x
                   | none =>
                     if maxTrackedDuration table > 0 then some (maxTrackedDuration table)
                     else none) with
            | some x => x
            | none => endTime - startTime) = d
      rw [hsid]
  · intro h0 hc d hd
    have hred : resolveDuration activeSpanId capturedSpanId table startTime endTime
        = (match (match (if capturedSpanId ≠ "" then
                          getSpanDuration table capturedSpanId
                        else none) with
                   | some x => some x
                   | none =>
                     if maxTrackedDuration table > 0 then some (maxTrackedDuration table)
                     else none) with
            | some x => x
            | none => endTime - startTime) := by
      cases activeSpanId with
      | none => rfl
      | some sid =>
        have hsid : getSpanDuration table sid = none := by simpa using h0
        show (match (match (match getSpanDuration table sid with
                            | some x => some x
                            | none =>
                              if capturedSpanId ≠ "" then
                                getSpanDuration table capturedSpanId
                              else none) with
                     | some x => some x
                     | none =>
                       if maxTrackedDuration table > 0 then some (maxTrackedDuration table)
                       else none) with
              | some x => x
              | none => endTime - startTime) = _
        rw [hsid]
    rw [hred, if_pos hc, hd]
  · intro h0 h1 hmax
    have hred : resolveDuration activeSpanId capturedSpanId table startTime endTime
        = (match (match (if capturedSpanId ≠ "" then
                          getSpanDuration table capturedSpanId
                        else none) with
                   | some x => some x
                   | none =>
                     if maxTrackedDuration table > 0 then some (maxTrackedDuration table)
                     else none) with
            | some x => x
            | none => endTime - startTime) := by
      cases activeSpanId with
      | none => rfl
      | some sid =>
        have hsid : getSpanDuration table sid = none := by simpa using h0
        show (match (match (match getSpanDuration table sid with
                            | some x => some x
                            | none =>
                              if capturedSpanId ≠ "" then
                                getSpanDuration table capturedSpanId
                              else none) with
                     | some x => some x
                     | none =>
                       if maxTrackedDuration table > 0 then some (maxTrackedDuration table)
                       else none) with
              | some x => x
              | none => endTime - startTime) = _
        rw [hsid]
    rw [hred]
    by_cases hc : capturedSpanId ≠ ""
    · rw [if_pos hc, h1 hc, if_pos hmax]
    · rw [if_neg hc, if_pos hmax]
  · intro h0 h1 hmax
    have hred : resolveDuration activeSpanId capturedSpanId table startTime endTime
        = (match (match (if capturedSpanId ≠ "" then
                          getSpanDuration table capturedSpanId
                        else none) with
                   | some x => some x
                   | none =>
                     if maxTrackedDuration table > 0 then some (maxTrackedDuration table)
                     else none) with
            | some x => x
            | none => endTime - startTime) := by
      cases activeSpanId with
      | none => rfl
      | some sid =>
        have hsid : getSpanDuration table sid = none := by simpa using h0
        show (match (match (match getSpanDuration table sid with
                            | some x => some x
                            | none =>
                              if capturedSpanId ≠ "" then
                                getSpanDuration table capturedSpanId
                              else none) with
                     | some x => some x
                     | none =>
                       if maxTrackedDuration table > 0 then some (maxTrackedDuration table)
                       else none) with
              | some x => x
              | none => endTime - startTime) = _
        rw [hsid]
    rw [hred]
    by_cases hc : capturedSpanId ≠ ""
    · rw [if_pos hc, h1 hc, if_neg hmax]
    · rw [if_neg hc, if_neg hmax]

/-- C1 witness: the spec's error-after-span-closed scenario — no active
span at completion, the captured spanId's tracked duration 9 is reported,
not the wall clock. -/
theorem C1_witness : resolveDuration none "s" [("s", 9)] 0 100 = 9 := by
  exact (C1_duration_fallback_order none "s" [("s", 9)] 0 100).2.1 rfl (by decide) 9 rfl

/-- Keys after a `Map.set`: unchanged when the key was present, appended
otherwise. -/
theorem mapSet_keys (m : SpanTable) (k : String) (v : ℚ) :
    (mapSet m k v).map Prod.fst =
      if k ∈ m.map Prod.fst then m.map Prod.fst else m.map Prod.fst ++ [k] := by
  induction m with
  | nil => simp [mapSet]
  | cons kv rest ih =>
    obtain ⟨k0, v0⟩ := kv
    by_cases h : k0 = k
    · subst h
      simp [mapSet]
    · simp only [mapSet, if_neg h, List.map_cons]
      by_cases hm : k ∈ rest.map Prod.fst
      · rw [ih, if_pos hm, if_pos (List.mem_cons_of_mem _ hm)]
      · rw [ih, if_neg hm, if_neg ?_]
        · rfl
        · intro hk
          rcases List.mem_cons.mp hk with h1 | h1
          · exact h h1.symm
          · exact hm h1

/-- Length after a `Map.set`. -/
theorem mapSet_length (m : SpanTable) (k : String) (v : ℚ) :
    (mapSet m k v).length = if k ∈ m.map Prod.fst then m.length else m.length + 1 := by
  have h := congrArg List.length (mapSet_keys m k v)
  simpa [apply_ite List.length] using h

/-- `Map.set` with a fresh key leaves a non-matching head in place. -/
theorem mapSet_cons_of_ne (k0 : String) (v0 : ℚ) (rest : SpanTable) (k : String) (v : ℚ)
    (h : k0 ≠ k) : mapSet ((k0, v0) :: rest) k v = (k0, v0) :: mapSet rest k v := by
  simp [mapSet, h]

/-- Well-formedness of the `spanDurations` table as maintained by `onEnd`:
distinct keys, no empty key, at most 100 entries. -/
def tableWF (m : SpanTable) : Prop :=
  (m.map Prod.fst).Nodup ∧ (∀ k ∈ m.map Prod.fst, k ≠ "") ∧ m.length ≤ 100

/-- One `onEnd` step preserves the table invariant, and an insertion that
pushes the table past 100 entries drops exactly the head — the
oldest-inserted entry. -/
theorem onEnd_preserves (m : SpanTable) (e : SpanEvent) (hwf : tableWF m)
    (hk : e.spanId ≠ "") :
    tableWF (SpanDurationTracker.onEnd m e) ∧
    ((mapSet m e.spanId e.durationMs).length > 100 →
      SpanDurationTracker.onEnd m e = (mapSet m e.spanId e.durationMs).tail ∧
      (mapSet m e.spanId e.durationMs).head? = m.head?) := by
  obtain ⟨hnd, hne, hlen⟩ := hwf
  by_cases hmem : e.spanId ∈ m.map Prod.fst
  · have hl1 : (mapSet m e.spanId e.durationMs).length = m.length := by
      rw [mapSet_length, if_pos hmem]
    have hkeys : (mapSet m e.spanId e.durationMs).map Prod.fst = m.map Prod.fst := by
      rw [mapSet_keys, if_pos hmem]
    have hnot : ¬ (mapSet m e.spanId e.durationMs).length > 100 := by omega
    have hend : SpanDurationTracker.onEnd m e = mapSet m e.spanId e.durationMs := by
      simp only [SpanDurationTracker.onEnd]
      rw [if_neg hnot]
    refine ⟨?_, fun h => absurd h hnot⟩
    rw [hend]
    exact ⟨hkeys ▸ hnd, hkeys ▸ hne, by omega⟩
  · have hl1 : (mapSet m e.spanId e.durationMs).length = m.length + 1 := by
      rw [mapSet_length, if_neg hmem]
    have hkeys : (mapSet m e.spanId e.durationMs).map Prod.fst
        = m.map Prod.fst ++ [e.spanId] := by
      rw [mapSet_keys, if_neg hmem]
    have hnd1 : ((mapSet m e.spanId e.durationMs).map Prod.fst).Nodup := by
      rw [hkeys]
      simp [List.nodup_append, hnd, hmem]
    have hne1 : ∀ k' ∈ (mapSet m e.spanId e.durationMs).map Prod.fst, k' ≠ "" := by
      rw [hkeys]
      intro k' hk'
      rcases List.mem_append.mp hk' with h1 | h1
      · exact hne k' h1
      · rw [List.mem_singleton.mp h1]
        exact hk
    by_cases h101 : (mapSet m e.spanId e.durationMs).length > 100
    · have hm100 : m.length = 100 := by omega
      obtain ⟨⟨k0, v0⟩, rest, rfl⟩ : ∃ kv rest, m = kv :: rest := by
        cases m with
        | nil => simp at hm100
        | cons kv rest => exact ⟨kv, rest, rfl⟩
      have hk0ne : k0 ≠ e.spanId := by
        intro h
        exact hmem (by simp [← h])
      have hm1eq : mapSet ((k0, v0) :: rest) e.spanId e.durationMs
          = (k0, v0) :: mapSet rest e.spanId e.durationMs :=
        mapSet_cons_of_ne k0 v0 rest e.spanId e.durationMs hk0ne
      have hk0emp : k0 ≠ "" := hne k0 (by simp)
      have hend : SpanDurationTracker.onEnd ((k0, v0) :: rest) e
          = mapSet rest e.spanId e.durationMs := by
        simp only [SpanDurationTracker.onEnd]
        rw [hm1eq, if_pos (hm1eq ▸ h101)]
        simp only [List.head?_cons]
        rw [if_pos hk0emp]
        simp only [mapDelete]
        simp [List.eraseP_cons]
      have hrestnd : (rest.map Prod.fst).Nodup ∧ k0 ∉ rest.map Prod.fst := by
        have h' := List.nodup_cons.mp (show (k0 :: rest.map Prod.fst).Nodup from hnd)
        exact ⟨h'.2, h'.1⟩
      have hmemrest : e.spanId ∉ rest.map Prod.fst := by
        intro h
        exact hmem (by simp [h])
      have hkeysrest : (mapSet rest e.spanId e.durationMs).map Prod.fst
          = rest.map Prod.fst ++ [e.spanId] := by
        rw [mapSet_keys, if_neg hmemrest]
      refine ⟨?_, fun _ => ⟨by rw [hend, hm1eq]; exact rfl, by rw [hm1eq]; exact rfl⟩⟩
      rw [hend]
      refine ⟨?_, ?_, ?_⟩
      · rw [hkeysrest]
        simp [List.nodup_append, hrestnd.1, hmemrest]
      · rw [hkeysrest]
        intro k' hk'
        rcases List.mem_append.mp hk' with h1 | h1
        · exact hne k' (by simp [h1])
        · rw [List.mem_singleton.mp h1]
          exact hk
      · rw [mapSet_length, if_neg hmemrest]
        have : rest.length + 1 = 100 := by simpa using hm100
        omega
    · have hend : SpanDurationTracker.onEnd m e = mapSet m e.spanId e.durationMs := by
        simp only [SpanDurationTracker.onEnd]
        rw [if_neg h101]
      refine ⟨?_, fun h => absurd h h101⟩
      rw [hend]
      exact ⟨hnd1, hne1, by omega⟩

/-- The table invariant holds along any fold of `onEnd` over events with
non-empty span IDs. -/
theorem processSpans_WF (events : List SpanEvent) :
    ∀ m : SpanTable, tableWF m → (∀ e ∈ events, e.spanId ≠ "") →
      tableWF (events.foldl SpanDurationTracker.onEnd m) := by
  induction events with
  | nil => intro m hm _; exact hm
  | cons e rest ih =>
    intro m hm hall
    exact ih _ ((onEnd_preserves m e hm (hall e (List.mem_cons_self _ _))).1)
      (fun e' he' => hall e' (List.mem_cons_of_mem _ he'))

/-- An event sequence whose first span ID is the empty string (falsy in
JavaScript), followed by 100 distinct non-empty IDs. -/
def overflowEvents : List SpanEvent :=
  ("" :: (List.range 100).map fun i => "k" ++ toString i).map fun k => ⟨k, 0, 0, 0, 0⟩

set_option maxRecDepth 10000 in
/-- C2 counterexample: after 101 events with distinct span IDs of which the
oldest is the empty string, the table holds 101 entries — the eviction
guard `if (firstKey)` skips deletion because the oldest key is falsy, so
the claimed 100-entry bound fails. -/
theorem C2_counterexample : (processSpans overflowEvents).length = 101 := by decide

/-- C2 amended: for every sequence of span-completion events whose span IDs
are non-empty (truthy), the table never exceeds 100 entries, and an
insertion that pushes a well-formed table past capacity evicts exactly one
entry — the oldest-inserted one, the head of the insertion-ordered table. -/
theorem C2_tracker_bounded_fifo :
    (∀ events : List SpanEvent, (∀ e ∈ events, e.spanId ≠ "") →
      (processSpans events).length ≤ 100) ∧
    (∀ (m : SpanTable) (e : SpanEvent), tableWF m → e.spanId ≠ "" →
      (SpanDurationTracker.onEnd m e).length ≤ 100 ∧
      ((mapSet m e.spanId e.durationMs).length > 100 →
        SpanDurationTracker.onEnd m e = (mapSet m e.spanId e.durationMs).tail ∧
        (mapSet m e.spanId e.durationMs).head? = m.head?)) := by
  constructor
  · intro events hall
    exact (processSpans_WF events [] ⟨List.nodup_nil, by simp, by simp⟩ hall).2.2
  · intro m e hwf hk
    exact ⟨((onEnd_preserves m e hwf hk).1).2.2, (onEnd_preserves m e hwf hk).2⟩

/-- C2 witness: a single completion event with a non-empty span ID keeps
the table within the 100-entry bound. -/
theorem C2_witness :
    (processSpans [⟨"a", 0, 0, 0, 7000000⟩]).length ≤ 100 := by
  exact C2_tracker_bounded_fifo.1 _ (by decide)

/-- The spec's round-trip example context
`{a: 1, b: "s", c: [1,2], d: {nested: true}}`. -/
def exampleContext : List (String × JsValue) :=
  [("a", .vNum 1), ("b", .vStr "s"), ("c", .vArr [.vNum 1, .vNum 2]),
   ("d", .vObj [("nested", .vBool true)])]

/-- C7 counterexample: a context entry holding the empty string is
classified primitive, yet it reaches neither the flat attribute list (the
sanitize filter drops its empty encoded value) nor the body, so the claimed
routing of every primitive entry to the flat attributes fails. -/
theorem C7_counterexample :
    CollectorExporter.isPrimitiveOrArrayOfPrimitives (.vStr "") = true ∧
    CollectorExporter.payloadContextAttributes [("a", .vStr "")] = [] ∧
    CollectorExporter.buildBodyContext [("a", .vStr "")] = none :=
  ⟨rfl, rfl, rfl⟩

/-- C7 amended: the exporter partitions context entries exclusively —
every entry other than the four excluded trace-correlation keys whose
value is a primitive or array of primitives, and whose encoded value
survives the empty-string filter, appears (key-renamed) in the flat
attribute list, and nothing else does; every complex-valued entry appears
in the body's `context` member, and nothing else does; the spec's example
routes `a`, `b`, `c` to flat attributes and `d` to the body. -/
theorem C7_context_partition :
    (∀ (context : List (String × JsValue)) (k : String) (v : JsValue),
      (k, v) ∈ context →
      CollectorExporter.isPrimitiveOrArrayOfPrimitives v = true →
      excludedFields.contains k = false →
      keepAttr (renameContextKey k, CollectorExporter.toAnyValue v) = true →
      (renameContextKey k, CollectorExporter.toAnyValue v) ∈
        CollectorExporter.payloadContextAttributes context) ∧
    (∀ (context : List (String × JsValue)) (a : String × AnyValue),
      a ∈ CollectorExporter.payloadContextAttributes context →
      ∃ k v, (k, v) ∈ context ∧ a = (renameContextKey k, CollectorExporter.toAnyValue v) ∧
        CollectorExporter.isPrimitiveOrArrayOfPrimitives v = true ∧
        excludedFields.contains k = false) ∧
    (∀ (context : List (String × JsValue)) (k : String) (v : JsValue),
      (k, v) ∈ context →
      CollectorExporter.isPrimitiveOrArrayOfPrimitives v = false →
      ∃ complex, CollectorExporter.buildBodyContext context = some complex ∧
        (k, v) ∈ complex) ∧
    (∀ (context : List (String × JsValue)) (k : String) (v : JsValue)
        (complex : List (String × JsValue)),
      CollectorExporter.buildBodyContext context = some complex → (k, v) ∈ complex →
      (k, v) ∈ context ∧ CollectorExporter.isPrimitiveOrArrayOfPrimitives v = false) ∧
    (CollectorExporter.payloadContextAttributes exampleContext
        = [("a", .intValue 1), ("b", .stringValue "s"),
           ("c", .arrayValue [.intValue 1, .intValue 2])] ∧
     CollectorExporter.buildBodyContext exampleContext
        = some [("d", .vObj [("nested", .vBool true)])]) := by
  refine ⟨?_, ?_, ?_, ?_, rfl, rfl⟩
  · intro context k v hmem hprim hexcl hkeep
    refine List.mem_filter.mpr ⟨?_, hkeep⟩
    refine List.mem_map.mpr ⟨(k, v), List.mem_filter.mpr ⟨hmem, ?_⟩, rfl⟩
    show (!excludedFields.contains k && CollectorExporter.isPrimitiveOrArrayOfPrimitives v)
        = true
    rw [hexcl, hprim]
    exact rfl
  · intro context a ha
    obtain ⟨ha1, hkeep⟩ := List.mem_filter.mp ha
    obtain ⟨kv, hkv, hform⟩ := List.mem_map.mp ha1
    obtain ⟨hmem, hpred⟩ := List.mem_filter.mp hkv
    simp only [Bool.and_eq_true] at hpred
    obtain ⟨h1, h2⟩ := hpred
    exact ⟨kv.1, kv.2, hmem, hform.symm, h2, by simpa using h1⟩
  · intro context k v hmem hnprim
    have hmemc : (k, v) ∈ context.filter
        (fun kv => !(CollectorExporter.isPrimitiveOrArrayOfPrimitives kv.2)) :=
      List.mem_filter.mpr ⟨hmem, by simp [hnprim]⟩
    have hne : context.filter
        (fun kv => !(CollectorExporter.isPrimitiveOrArrayOfPrimitives kv.2)) ≠ [] :=
      List.ne_nil_of_mem hmemc
    refine ⟨_, ?_, hmemc⟩
    simp only [CollectorExporter.buildBodyContext]
    rw [if_neg (by simpa using hne)]
  · intro context k v complex hsome hmemc
    simp only [CollectorExporter.buildBodyContext] at hsome
    split at hsome
    · exact absurd hsome (by simp)
    · obtain rfl : context.filter
          (fun kv => !(CollectorExporter.isPrimitiveOrArrayOfPrimitives kv.2)) = complex :=
        Option.some.inj hsome
      obtain ⟨hmem, hp⟩ := List.mem_filter.mp hmemc
      exact ⟨hmem, by simpa using hp⟩

/-- C7 witness: the entry `a: 1` of the example context reaches the flat
attribute list as an integer attribute. -/
theorem C7_witness :
    ("a", AnyValue.intValue 1) ∈ CollectorExporter.payloadContextAttributes exampleContext := by
  exact C7_context_partition.1 exampleContext "a" (.vNum 1)
    (List.mem_cons_self _ _) rfl rfl rfl

/-- C10: `null` and `undefined` encode to the empty-string value; the
sanitize filter drops every attribute whose encoded value is the empty
string; an empty-string, `null` or `undefined` context value is classified
primitive and therefore (under the exporter's injective key renaming, as
for any JavaScript object's distinct keys) its key appears in neither the
flat attribute list nor the body context — the entry is lost entirely. -/
theorem C10_empty_encoded_attrs_dropped :
    (CollectorExporter.toAnyValue .vNull = .stringValue "" ∧
     CollectorExporter.toAnyValue .vUndefined = .stringValue "") ∧
    (∀ (attrs : List (String × AnyValue)) (k : String),
      (k, AnyValue.stringValue "") ∉ CollectorExporter.sanitizeAttributes attrs) ∧
    (∀ v : JsValue, v = .vStr "" ∨ v = .vNull ∨ v = .vUndefined →
      CollectorExporter.isPrimitiveOrArrayOfPrimitives v = true) ∧
    (∀ (context : List (String × JsValue)) (k : String) (v : JsValue),
      (k, v) ∈ context → (v = .vStr "" ∨ v = .vNull ∨ v = .vUndefined) →
      ((context.map fun kv => renameContextKey kv.1).Nodup →
        renameContextKey k ∉
          (CollectorExporter.payloadContextAttributes context).map Prod.fst) ∧
      (∀ complex, CollectorExporter.buildBodyContext context = some complex →
        (k, v) ∉ complex)) := by
  refine ⟨⟨rfl, rfl⟩, ?_, ?_, ?_⟩
  · intro attrs k h
    obtain ⟨_, hkeep⟩ := List.mem_filter.mp h
    exact Bool.false_ne_true hkeep
  · intro v hv
    rcases hv with rfl | rfl | rfl <;> rfl
  · intro context k v hmem hv
    have henc : CollectorExporter.toAnyValue v = .stringValue "" := by
      rcases hv with rfl | rfl | rfl <;> rfl
    have hprim : CollectorExporter.isPrimitiveOrArrayOfPrimitives v = true := by
      rcases hv with rfl | rfl | rfl <;> rfl
    constructor
    · intro hnod hk
      obtain ⟨a, ha, hfst⟩ := List.mem_map.mp hk
      obtain ⟨ha1, hkeep⟩ := List.mem_filter.mp ha
      obtain ⟨kv, hkv, hform⟩ := List.mem_map.mp ha1
      obtain ⟨hmem', _⟩ := List.mem_filter.mp hkv
      have hrr : renameContextKey kv.1 = renameContextKey k := by
        rw [show renameContextKey kv.1 = a.1 from congrArg Prod.fst hform, hfst]
      have hkveq : kv = (k, v) :=
        List.inj_on_of_nodup_map hnod hmem' hmem hrr
      rw [← hform, hkveq] at hkeep
      rw [show CollectorExporter.toAnyValue (k, v).2 = .stringValue "" from henc] at hkeep
      exact Bool.false_ne_true hkeep
    · intro complex hsome hmemc
      simp only [CollectorExporter.buildBodyContext] at hsome
      split at hsome
      · exact absurd hsome (by simp)
      · obtain rfl : context.filter
            (fun kv => !(CollectorExporter.isPrimitiveOrArrayOfPrimitives kv.2)) = complex :=
          Option.some.inj hsome
        obtain ⟨_, hp⟩ := List.mem_filter.mp hmemc
        rw [hprim] at hp
        simp at hp

/-- C10 witness: the context entry `a: ""` is classified primitive and its
key reaches neither the flat attributes nor the body. -/
theorem C10_witness :
    renameContextKey "a" ∉
      (CollectorExporter.payloadContextAttributes [("a", JsValue.vStr "")]).map Prod.fst := by
  exact ((C10_empty_encoded_attrs_dropped.2.2.2 [("a", .vStr "")] "a" (.vStr "")
    (List.mem_cons_self _ _) (Or.inl rfl)).1) (by decide)
